import Mathlib

/-!
Verification of the gpuOwL command-line configuration parser (`src/args.h`).

The parser (`Args::parse`) scans the argument vector left to right, mutating a
configuration record `Args`, and on success runs a normalization pass that
fills derived defaults, clamps and truncates the cadence fields, and forces
`timeKernels` off when `logStep == 1`.  External collaborators (the OpenCL
device enumerator and the logger of `clwrap.h` / `common.h`) are modelled by
an environment record and an explicit list of emitted log messages.
-/

/-- One character of C `isspace`, as consulted by `atoi`. -/
def c_isSpace (c : Char) : Bool :=
  c = ' ' || c = '\t' || c = '\n' || c = '\x0b' || c = '\x0c' || c = '\r'

/-- Digit-accumulation loop of C `atoi`: consume leading decimal digits. -/
def atoiDigits : List Char → Nat → Nat
  | [], acc => acc
  | c :: cs, acc => if c.isDigit then atoiDigits cs (10 * acc + (c.toNat - '0'.toNat)) else acc

/-- C `atoi`: skip whitespace, read an optional sign, then leading digits;
yields 0 when no digits are present (best-effort, no error signalling). -/
def atoi (s : String) : Int :=
  match s.toList.dropWhile c_isSpace with
  | '-' :: cs => -(atoiDigits cs 0 : Int)
  | '+' :: cs => (atoiDigits cs 0 : Int)
  | cs => (atoiDigits cs 0 : Int)

/-- The configuration record `struct Args` of `src/args.h`. -/
@[ext]
structure Args where
  clArgs : String
  uid : String
  logStep : Int
  saveStep : Int
  checkStep : Int
  device : Int
  timeKernels : Bool
  selfTest : Bool
  useLegacy : Bool
  safe : Bool
deriving Repr, DecidableEq

/-- The constructor `Args::Args()`: default values. -/
def Args.init : Args where
  clArgs := ""
  uid := ""
  logStep := 20000
  saveStep := 0
  checkStep := 0
  device := -1
  timeKernels := false
  selfTest := false
  useLegacy := false
  safe := false

/-- External collaborators of the parser: the device enumerator of `clwrap.h`.
`numDevices` is what `getNumberOfDevices()` reports; `deviceInfo i` is the
description string `getDeviceInfo` yields for the i-th enumerated device. -/
structure Env where
  numDevices : Nat
  deviceInfo : Nat → String

/-- One call to the logger, abstracted to the identity of the format string
together with the data interpolated into it. -/
inductive LogMsg where
  | usage (logStep saveDefault checkDefault : Int)
  | deviceLine (index : Nat) (info : String)
  | filesInfo
  | worktodoInfo
  | invalidLogstep (tok : String)
  | logstepExpects
  | invalidSavestep (tok : String)
  | savestepExpects
  | invalidCheckstep (tok : String)
  | checkstepExpects
  | uidExpects
  | clExpects
  | timeExpects
  | invalidDevice (dev maxIndex : Int)
  | deviceExpects
  | notUnderstood (tok : String)
  | ignoringTimeKernels
  | config (a : Args)
deriving Repr, DecidableEq

/-- Recognizer for the per-device lines of the help output. -/
def LogMsg.isDeviceLine : LogMsg → Bool
  | .deviceLine _ _ => true
  | _ => false

/-- Recognizer for the warning emitted when `timeKernels` is forced off. -/
def LogMsg.isTimeWarning : LogMsg → Bool
  | .ignoringTimeKernels => true
  | _ => false

/-- The log output of the `-h` / `--help` branch: the usage text (with the
derived defaults computed from the current `logStep`), then one line per
enumerated device — `getDeviceIDs(false, 16, devices)` reports at most 16 —
then the file descriptions and the worktodo format.
The device enumeration is modelled from the spec: `clwrap.h` is not part of
the parser source; per the spec the enumerator lists at most `maxCount`
devices, so `getDeviceIDs(false, 16, ...)` yields `min numDevices 16`. -/
def helpMsgs (env : Env) (logStep : Int) : List LogMsg :=
  LogMsg.usage logStep (500 * logStep) (10 * logStep)
    :: ((List.range (min env.numDevices 16)).map fun i => LogMsg.deviceLine i (env.deviceInfo i))
    ++ [LogMsg.filesInfo, LogMsg.worktodoInfo]

/-- Outcome of the scanning loop of `Args::parse`: either some token made the
function return `false` (with the mutated state and the emitted diagnostics),
or the whole vector was consumed and control reaches the normalization code. -/
inductive ScanResult where
  | failed (a : Args) (msgs : List LogMsg)
  | done (a : Args)
deriving Repr, DecidableEq

/-- The token loop of `Args::parse` (`for (int i = 1; i < argc; ++i) ...`),
one constructor per `strcmp` branch, in source order.  A value flag consumes
the following token when it exists (`i < argc - 1`) and otherwise fails. -/
def scanLoop (env : Env) : List String → Args → ScanResult
  | [], a => .done a
  | arg :: rest, a =>
    if arg = "-h" || arg = "--help" then
      .failed a (helpMsgs env a.logStep)
    else if arg = "-logstep" then
      match rest with
      | v :: rest₂ =>
        let a₂ := { a with logStep := atoi v }
        if a₂.logStep ≤ 0 then .failed a₂ [.invalidLogstep v] else scanLoop env rest₂ a₂
      | [] => .failed a [.logstepExpects]
    else if arg = "-savestep" then
      match rest with
      | v :: rest₂ =>
        let a₂ := { a with saveStep := atoi v }
        if a₂.saveStep ≤ 0 then .failed a₂ [.invalidSavestep v] else scanLoop env rest₂ a₂
      | [] => .failed a [.savestepExpects]
    else if arg = "-checkstep" then
      match rest with
      | v :: rest₂ =>
        let a₂ := { a with checkStep := atoi v }
        if a₂.checkStep ≤ 0 then .failed a₂ [.invalidCheckstep v] else scanLoop env rest₂ a₂
      | [] => .failed a [.checkstepExpects]
    else if arg = "-uid" then
      match rest with
      | v :: rest₂ => scanLoop env rest₂ { a with uid := v }
      | [] => .failed a [.uidExpects]
    else if arg = "-supersafe" then
      scanLoop env rest { a with safe := true }
    else if arg = "-cl" then
      match rest with
      | v :: rest₂ => scanLoop env rest₂ { a with clArgs := v }
      | [] => .failed a [.clExpects]
    else if arg = "-selftest" then
      scanLoop env rest { a with selfTest := true }
    else if arg = "-time" then
      match rest with
      | v :: rest₂ =>
        if v = "kernels" then scanLoop env rest₂ { a with timeKernels := true }
        else .failed a [.timeExpects]
      | [] => .failed a [.timeExpects]
    else if arg = "-legacy" then
      scanLoop env rest { a with useLegacy := true }
    else if arg = "-device" then
      match rest with
      | v :: rest₂ =>
        let a₂ := { a with device := atoi v }
        if a₂.device < 0 || (env.numDevices : Int) ≤ a₂.device then
          .failed a₂ [.invalidDevice a₂.device ((env.numDevices : Int) - 1)]
        else scanLoop env rest₂ a₂
      | [] => .failed a [.deviceExpects]
    else
      .failed a [.notUnderstood arg]

/-- Line 166: `if (!saveStep) { saveStep = logStep * 500; }`. -/
def fillSave (a : Args) : Args :=
  if a.saveStep = 0 then { a with saveStep := a.logStep * 500 } else a

/-- Line 167: `if (!checkStep) { checkStep = logStep * 10; }`. -/
def fillCheck (a : Args) : Args :=
  if a.checkStep = 0 then { a with checkStep := a.logStep * 10 } else a

/-- Line 169: `if (saveStep < logStep) { saveStep = logStep; }`. -/
def clampSave (a : Args) : Args :=
  if a.saveStep < a.logStep then { a with saveStep := a.logStep } else a

/-- Line 170: `if (checkStep < logStep) { checkStep = logStep; }`. -/
def clampCheck (a : Args) : Args :=
  if a.checkStep < a.logStep then { a with checkStep := a.logStep } else a

/-- Lines 173-174: make `saveStep`/`checkStep` multiples of `logStep`; the
C expression `x -= x % logStep` uses truncated division, `Int.tmod`. -/
def truncSteps (a : Args) : Args :=
  { a with saveStep := a.saveStep - Int.tmod a.saveStep a.logStep,
           checkStep := a.checkStep - Int.tmod a.checkStep a.logStep }

/-- Lines 176-179: drop `timeKernels` with a warning when `logStep == 1`. -/
def forceTime (a : Args) : Args × List LogMsg :=
  if a.timeKernels ∧ a.logStep = 1 then
    ({ a with timeKernels := false }, [.ignoringTimeKernels])
  else
    (a, [])

/-- The normalization code after the loop of `Args::parse` (lines 165-179),
in source order. -/
def normalizeArgs (a : Args) : Args × List LogMsg :=
  forceTime (truncSteps (clampCheck (clampSave (fillCheck (fillSave a)))))

/-- Method `Args::parse(argc, argv)` on the receiver `a`: scan the tokens after the
program name; on fall-through normalizeArgs, echo the configuration (`logConfig`)
and return `true`.  The result is the returned Bool, the final record, and
the log messages emitted during the call. -/
def parse (env : Env) (a : Args) (argv : List String) : Bool × Args × List LogMsg :=
  match scanLoop env (argv.drop 1) a with
  | .failed a₂ msgs => (false, a₂, msgs)
  | .done a₂ =>
    let n := normalizeArgs a₂
    (true, n.1, n.2 ++ [.config n.1])

/-- A whole run as `main` performs it: default-construct `Args`, then parse. -/
def runParse (env : Env) (argv : List String) : Bool × Args × List LogMsg :=
  parse env Args.init argv

/-- The `expects` diagnostic each value flag emits when it is the last token
(lines 95, 106, 117, 124, 133, 156 of `src/args.h`). -/
def expectsMsg : String → LogMsg
  | "-logstep" => .logstepExpects
  | "-savestep" => .savestepExpects
  | "-checkstep" => .checkstepExpects
  | "-uid" => .uidExpects
  | "-cl" => .clExpects
  | "-device" => .deviceExpects
  | s => .notUnderstood s

/-- A concrete environment used to instantiate witnesses: two devices. -/
def envTest : Env where
  numDevices := 2
  deviceInfo := fun _ => "gfx906"

lemma scanLoop_timeKernels_mono (env : Env) (l : List String) (a : Args) :
    ∀ a', scanLoop env l a = .done a' → (a.timeKernels = true → a'.timeKernels = true) := by
  induction l, a using scanLoop.induct env <;>
    intro a' h <;>
    rw [scanLoop.eq_def] at h <;>
    simp_all <;>
    (try split at h) <;>
    simp_all

lemma scanLoop_logStep_const (env : Env) (l : List String) (a : Args) :
    ∀ a', scanLoop env l a = .done a' → "-logstep" ∉ l → a'.logStep = a.logStep := by
  induction l, a using scanLoop.induct env <;>
    intro a' h <;>
    rw [scanLoop.eq_def] at h <;>
    simp_all <;>
    (try split at h) <;>
    simp_all

lemma scanLoop_saveStep_const (env : Env) (l : List String) (a : Args) :
    ∀ a', scanLoop env l a = .done a' → "-savestep" ∉ l → a'.saveStep = a.saveStep := by
  induction l, a using scanLoop.induct env <;>
    intro a' h <;>
    rw [scanLoop.eq_def] at h <;>
    simp_all <;>
    (try split at h) <;>
    simp_all

lemma scanLoop_checkStep_const (env : Env) (l : List String) (a : Args) :
    ∀ a', scanLoop env l a = .done a' → "-checkstep" ∉ l → a'.checkStep = a.checkStep := by
  induction l, a using scanLoop.induct env <;>
    intro a' h <;>
    rw [scanLoop.eq_def] at h <;>
    simp_all <;>
    (try split at h) <;>
    simp_all

lemma scanLoop_uid_const (env : Env) (l : List String) (a : Args) :
    ∀ a', scanLoop env l a = .done a' → "-uid" ∉ l → a'.uid = a.uid := by
  induction l, a using scanLoop.induct env <;>
    intro a' h <;>
    rw [scanLoop.eq_def] at h <;>
    simp_all <;>
    (try split at h) <;>
    simp_all

lemma scanLoop_clArgs_const (env : Env) (l : List String) (a : Args) :
    ∀ a', scanLoop env l a = .done a' → "-cl" ∉ l → a'.clArgs = a.clArgs := by
  induction l, a using scanLoop.induct env <;>
    intro a' h <;>
    rw [scanLoop.eq_def] at h <;>
    simp_all <;>
    (try split at h) <;>
    simp_all

lemma scanLoop_device_const (env : Env) (l : List String) (a : Args) :
    ∀ a', scanLoop env l a = .done a' → "-device" ∉ l → a'.device = a.device := by
  induction l, a using scanLoop.induct env <;>
    intro a' h <;>
    rw [scanLoop.eq_def] at h <;>
    simp_all <;>
    (try split at h) <;>
    simp_all

lemma scanLoop_logStep_pos (env : Env) (l : List String) (a : Args) :
    ∀ a', scanLoop env l a = .done a' → (0 < a.logStep → 0 < a'.logStep) := by
  induction l, a using scanLoop.induct env <;>
    intro a' h <;>
    rw [scanLoop.eq_def] at h <;>
    simp_all <;>
    (try split at h) <;>
    simp_all

lemma scanLoop_saveStep_nonneg (env : Env) (l : List String) (a : Args) :
    ∀ a', scanLoop env l a = .done a' → (0 ≤ a.saveStep → 0 ≤ a'.saveStep) := by
  induction l, a using scanLoop.induct env <;>
    intro a' h <;>
    rw [scanLoop.eq_def] at h <;>
    simp_all <;>
    (try split at h) <;>
    simp_all <;>
    omega

lemma scanLoop_checkStep_nonneg (env : Env) (l : List String) (a : Args) :
    ∀ a', scanLoop env l a = .done a' → (0 ≤ a.checkStep → 0 ≤ a'.checkStep) := by
  induction l, a using scanLoop.induct env <;>
    intro a' h <;>
    rw [scanLoop.eq_def] at h <;>
    simp_all <;>
    (try split at h) <;>
    simp_all <;>
    omega

lemma scanLoop_device_ok (env : Env) (l : List String) (a : Args) :
    ∀ a', scanLoop env l a = .done a' →
      ((a.device = -1 ∨ (0 ≤ a.device ∧ a.device < (env.numDevices : Int))) →
        (a'.device = -1 ∨ (0 ≤ a'.device ∧ a'.device < (env.numDevices : Int)))) := by
  induction l, a using scanLoop.induct env <;>
    intro a' h <;>
    rw [scanLoop.eq_def] at h <;>
    simp_all <;>
    (try split at h) <;>
    simp_all

lemma fillSave_eq (a : Args) :
    fillSave a = { a with saveStep := if a.saveStep = 0 then a.logStep * 500 else a.saveStep } := by
  unfold fillSave; split <;> simp_all

lemma fillCheck_eq (a : Args) :
    fillCheck a = { a with checkStep := if a.checkStep = 0 then a.logStep * 10 else a.checkStep } := by
  unfold fillCheck; split <;> simp_all

lemma clampSave_eq (a : Args) :
    clampSave a = { a with saveStep := if a.saveStep < a.logStep then a.logStep else a.saveStep } := by
  unfold clampSave; split <;> simp_all

lemma clampCheck_eq (a : Args) :
    clampCheck a = { a with checkStep := if a.checkStep < a.logStep then a.logStep else a.checkStep } := by
  unfold clampCheck; split <;> simp_all

lemma forceTime_fst (a : Args) :
    (forceTime a).1 =
      { a with timeKernels := if a.timeKernels ∧ a.logStep = 1 then false else a.timeKernels } := by
  unfold forceTime; split <;> simp_all

lemma forceTime_snd (a : Args) :
    (forceTime a).2 =
      if a.timeKernels ∧ a.logStep = 1 then [LogMsg.ignoringTimeKernels] else [] := by
  unfold forceTime; split <;> simp_all

lemma truncStep_bounds (L S : Int) (hL : 0 < L) (hS : L ≤ S) :
    L ≤ S - Int.tmod S L ∧ (S - Int.tmod S L) % L = 0 ∧ S - Int.tmod S L ≤ S := by
  rw [Int.tmod_eq_emod (by omega) (by omega)]
  have h₁ : 0 ≤ S % L := Int.emod_nonneg S (by omega)
  have h₂ : S % L < L := Int.emod_lt_of_pos S hL
  have h₃ : S - S % L = L * (S / L) := by rw [Int.emod_def]; ring
  have h₄ : 1 ≤ S / L := by rw [Int.le_ediv_iff_mul_le hL]; omega
  refine ⟨?_, ?_, by omega⟩
  · rw [h₃]; nlinarith
  · simp [Int.sub_emod]

lemma le_clamped (L X : Int) : L ≤ if X < L then L else X := by split <;> omega

lemma normalizeArgs_saveStep (a : Args) :
    (normalizeArgs a).1.saveStep =
      (if (if a.saveStep = 0 then a.logStep * 500 else a.saveStep) < a.logStep then a.logStep
        else if a.saveStep = 0 then a.logStep * 500 else a.saveStep) -
      Int.tmod
        (if (if a.saveStep = 0 then a.logStep * 500 else a.saveStep) < a.logStep then a.logStep
          else if a.saveStep = 0 then a.logStep * 500 else a.saveStep) a.logStep := by
  simp [normalizeArgs, fillSave_eq, fillCheck_eq, clampSave_eq, clampCheck_eq, truncSteps,
    forceTime_fst]

lemma normalizeArgs_checkStep (a : Args) :
    (normalizeArgs a).1.checkStep =
      (if (if a.checkStep = 0 then a.logStep * 10 else a.checkStep) < a.logStep then a.logStep
        else if a.checkStep = 0 then a.logStep * 10 else a.checkStep) -
      Int.tmod
        (if (if a.checkStep = 0 then a.logStep * 10 else a.checkStep) < a.logStep then a.logStep
          else if a.checkStep = 0 then a.logStep * 10 else a.checkStep) a.logStep := by
  simp [normalizeArgs, fillSave_eq, fillCheck_eq, clampSave_eq, clampCheck_eq, truncSteps,
    forceTime_fst]

lemma normalizeArgs_logStep (a : Args) : (normalizeArgs a).1.logStep = a.logStep := by
  simp [normalizeArgs, fillSave_eq, fillCheck_eq, clampSave_eq, clampCheck_eq, truncSteps,
    forceTime_fst]

lemma normalizeArgs_device (a : Args) : (normalizeArgs a).1.device = a.device := by
  simp [normalizeArgs, fillSave_eq, fillCheck_eq, clampSave_eq, clampCheck_eq, truncSteps,
    forceTime_fst]

lemma normalizeArgs_timeKernels (a : Args) :
    (normalizeArgs a).1.timeKernels =
      if a.timeKernels ∧ a.logStep = 1 then false else a.timeKernels := by
  simp [normalizeArgs, fillSave_eq, fillCheck_eq, clampSave_eq, clampCheck_eq, truncSteps,
    forceTime_fst]

lemma normalizeArgs_core (a : Args) (hl : 0 < a.logStep) :
    (normalizeArgs a).1.logStep = a.logStep ∧
    a.logStep ≤ (normalizeArgs a).1.saveStep ∧ (normalizeArgs a).1.saveStep % a.logStep = 0 ∧
    a.logStep ≤ (normalizeArgs a).1.checkStep ∧ (normalizeArgs a).1.checkStep % a.logStep = 0 ∧
    ((normalizeArgs a).1.timeKernels = true → 1 < a.logStep) ∧
    (normalizeArgs a).1.device = a.device := by
  have hsb := truncStep_bounds a.logStep
    (if (if a.saveStep = 0 then a.logStep * 500 else a.saveStep) < a.logStep then a.logStep
      else if a.saveStep = 0 then a.logStep * 500 else a.saveStep) hl (le_clamped _ _)
  have hcb := truncStep_bounds a.logStep
    (if (if a.checkStep = 0 then a.logStep * 10 else a.checkStep) < a.logStep then a.logStep
      else if a.checkStep = 0 then a.logStep * 10 else a.checkStep) hl (le_clamped _ _)
  refine ⟨normalizeArgs_logStep a, ?_, ?_, ?_, ?_, ?_, normalizeArgs_device a⟩
  · rw [normalizeArgs_saveStep]; exact hsb.1
  · rw [normalizeArgs_saveStep]; exact hsb.2.1
  · rw [normalizeArgs_checkStep]; exact hcb.1
  · rw [normalizeArgs_checkStep]; exact hcb.2.1
  · rw [normalizeArgs_timeKernels]
    split
    · intro hfalse; cases hfalse
    · rename_i hcond
      intro htk
      rw [htk] at hcond
      simp at hcond
      omega

lemma scanLoop_append (env : Env) (l₂ : List String) (l₁ : List String) (a : Args) :
    ∀ a₁, scanLoop env l₁ a = .done a₁ →
      scanLoop env (l₁ ++ l₂) a = scanLoop env l₂ a₁ := by
  induction l₁, a using scanLoop.induct env <;>
    intro a₁ h <;>
    rw [scanLoop.eq_def] at h <;>
    (try rw [List.cons_append, scanLoop.eq_def]) <;>
    simp_all <;>
    (try split at h) <;>
    simp_all

lemma scanLoop_posTok (env : Env) (s : String) (rest : List String) (a : Args)
    (hpos : 0 < atoi s) :
    scanLoop env (s :: rest) a = .failed a [.notUnderstood s] := by
  have hne : ∀ t : String, atoi t = 0 → ¬(s = t) := by
    intro t h0 hst
    subst hst
    omega
  rw [scanLoop.eq_def]
  dsimp only
  rw [if_neg (by simp; exact ⟨hne _ (by decide), hne _ (by decide)⟩)]
  rw [if_neg (hne "-logstep" (by decide))]
  rw [if_neg (hne "-savestep" (by decide))]
  rw [if_neg (hne "-checkstep" (by decide))]
  rw [if_neg (hne "-uid" (by decide))]
  rw [if_neg (hne "-supersafe" (by decide))]
  rw [if_neg (hne "-cl" (by decide))]
  rw [if_neg (hne "-selftest" (by decide))]
  rw [if_neg (hne "-time" (by decide))]
  rw [if_neg (hne "-legacy" (by decide))]
  rw [if_neg (hne "-device" (by decide))]

lemma scanLoop_last_logstep (env : Env) (sL : String) (tl : List String)
    (hnot : "-logstep" ∉ tl) (hpos : 0 < atoi sL) :
    ∀ (l : List String) (a : Args) (pre : List String) (a' : Args),
      l = pre ++ "-logstep" :: sL :: tl →
      scanLoop env l a = .done a' → a'.logStep = atoi sL := by
  intro l a
  induction l, a using scanLoop.induct env with
  | case1 a =>
    intro pre a' hl h
    simp at hl
  | case2 arg rest a hcond =>
    intro pre a' hl h
    rw [scanLoop.eq_def] at h
    simp_all
  | case3 a v rest2 a2 hle hne1 =>
    intro pre a' hl h
    rw [scanLoop.eq_def] at h
    simp_all
  | case4 a v rest2 a2 hnle hne1 ih =>
    intro pre a' hl h
    rw [scanLoop.eq_def] at h
    dsimp only at h
    rw [if_neg (by simp), if_pos (by trivial), if_neg (by simp_all)] at h
    cases pre with
    | nil =>
      simp only [List.nil_append, List.cons.injEq] at hl
      obtain ⟨-, hv, ht⟩ := hl
      subst hv
      subst ht
      have hc := scanLoop_logStep_const env _ _ a' h hnot
      simpa using hc
    | cons p pre1 =>
      simp only [List.cons_append, List.cons.injEq] at hl
      obtain ⟨hp, hrest⟩ := hl
      cases pre1 with
      | nil =>
        simp only [List.nil_append, List.cons.injEq] at hrest
        obtain ⟨hv, -⟩ := hrest
        subst hv
        exact absurd (by decide : atoi "-logstep" ≤ 0) (by simp_all)
      | cons w pre2 =>
        simp only [List.cons_append, List.cons.injEq] at hrest
        obtain ⟨hw, hrest2⟩ := hrest
        exact ih pre2 a' hrest2 h
  | case5 a hne1 =>
    intro pre a' hl h
    rw [scanLoop.eq_def] at h
    simp_all
  | case6 a v rest2 a2 hle hne1 hne2 =>
    intro pre a' hl h
    rw [scanLoop.eq_def] at h
    simp_all
  | case7 a v rest2 a2 hnle hne1 hne2 ih =>
    intro pre a' hl h
    rw [scanLoop.eq_def] at h
    dsimp only at h
    rw [if_neg (by simp), if_neg (by simp), if_pos (by trivial), if_neg (by simp_all)] at h
    cases pre with
    | nil => simp at hl
    | cons p pre1 =>
      simp only [List.cons_append, List.cons.injEq] at hl
      obtain ⟨hp, hrest⟩ := hl
      cases pre1 with
      | nil =>
        simp only [List.nil_append, List.cons.injEq] at hrest
        obtain ⟨hv, -⟩ := hrest
        subst hv
        exact absurd (by decide : atoi "-logstep" ≤ 0) (by simp_all)
      | cons w pre2 =>
        simp only [List.cons_append, List.cons.injEq] at hrest
        obtain ⟨hw, hrest2⟩ := hrest
        exact ih pre2 a' hrest2 h
  | case8 a hne1 hne2 =>
    intro pre a' hl h
    rw [scanLoop.eq_def] at h
    simp_all
  | case9 a v rest2 a2 hle hne1 hne2 hne3 =>
    intro pre a' hl h
    rw [scanLoop.eq_def] at h
    simp_all
  | case10 a v rest2 a2 hnle hne1 hne2 hne3 ih =>
    intro pre a' hl h
    rw [scanLoop.eq_def] at h
    dsimp only at h
    rw [if_neg (by simp), if_neg (by simp), if_neg (by simp), if_pos (by trivial),
      if_neg (by simp_all)] at h
    cases pre with
    | nil => simp at hl
    | cons p pre1 =>
      simp only [List.cons_append, List.cons.injEq] at hl
      obtain ⟨hp, hrest⟩ := hl
      cases pre1 with
      | nil =>
        simp only [List.nil_append, List.cons.injEq] at hrest
        obtain ⟨hv, -⟩ := hrest
        subst hv
        exact absurd (by decide : atoi "-logstep" ≤ 0) (by simp_all)
      | cons w pre2 =>
        simp only [List.cons_append, List.cons.injEq] at hrest
        obtain ⟨hw, hrest2⟩ := hrest
        exact ih pre2 a' hrest2 h
  | case11 a hne1 hne2 hne3 =>
    intro pre a' hl h
    rw [scanLoop.eq_def] at h
    simp_all
  | case12 a v rest2 hne1 hne2 hne3 hne4 ih =>
    intro pre a' hl h
    rw [scanLoop.eq_def] at h
    dsimp only at h
    rw [if_neg (by simp), if_neg (by simp), if_neg (by simp), if_neg (by simp),
      if_pos (by trivial)] at h
    cases pre with
    | nil => simp at hl
    | cons p pre1 =>
      simp only [List.cons_append, List.cons.injEq] at hl
      obtain ⟨hp, hrest⟩ := hl
      cases pre1 with
      | nil =>
        simp only [List.nil_append, List.cons.injEq] at hrest
        obtain ⟨hv, ht⟩ := hrest
        subst hv
        subst ht
        rw [scanLoop_posTok env sL tl _ hpos] at h
        simp at h
      | cons w pre2 =>
        simp only [List.cons_append, List.cons.injEq] at hrest
        obtain ⟨hw, hrest2⟩ := hrest
        exact ih pre2 a' hrest2 h
  | case13 a hne1 hne2 hne3 hne4 =>
    intro pre a' hl h
    rw [scanLoop.eq_def] at h
    simp_all
  | case14 rest a hne1 hne2 hne3 hne4 hne5 ih =>
    intro pre a' hl h
    rw [scanLoop.eq_def] at h
    dsimp only at h
    rw [if_neg (by simp), if_neg (by simp), if_neg (by simp), if_neg (by simp),
      if_neg (by simp), if_pos (by trivial)] at h
    cases pre with
    | nil => simp at hl
    | cons p pre1 =>
      simp only [List.cons_append, List.cons.injEq] at hl
      obtain ⟨hp, hrest⟩ := hl
      exact ih pre1 a' hrest h
  | case15 a v rest2 hne1 hne2 hne3 hne4 hne5 hne6 ih =>
    intro pre a' hl h
    rw [scanLoop.eq_def] at h
    dsimp only at h
    rw [if_neg (by simp), if_neg (by simp), if_neg (by simp), if_neg (by simp),
      if_neg (by simp), if_neg (by simp), if_pos (by trivial)] at h
    cases pre with
    | nil => simp at hl
    | cons p pre1 =>
      simp only [List.cons_append, List.cons.injEq] at hl
      obtain ⟨hp, hrest⟩ := hl
      cases pre1 with
      | nil =>
        simp only [List.nil_append, List.cons.injEq] at hrest
        obtain ⟨hv, ht⟩ := hrest
        subst hv
        subst ht
        rw [scanLoop_posTok env sL tl _ hpos] at h
        simp at h
      | cons w pre2 =>
        simp only [List.cons_append, List.cons.injEq] at hrest
        obtain ⟨hw, hrest2⟩ := hrest
        exact ih pre2 a' hrest2 h
  | case16 a hne1 hne2 hne3 hne4 hne5 hne6 =>
    intro pre a' hl h
    rw [scanLoop.eq_def] at h
    simp_all
  | case17 rest a hne1 hne2 hne3 hne4 hne5 hne6 hne7 ih =>
    intro pre a' hl h
    rw [scanLoop.eq_def] at h
    dsimp only at h
    rw [if_neg (by simp), if_neg (by simp), if_neg (by simp), if_neg (by simp),
      if_neg (by simp), if_neg (by simp), if_neg (by simp), if_pos (by trivial)] at h
    cases pre with
    | nil => simp at hl
    | cons p pre1 =>
      simp only [List.cons_append, List.cons.injEq] at hl
      obtain ⟨hp, hrest⟩ := hl
      exact ih pre1 a' hrest h
  | case18 a rest2 hne1 hne2 hne3 hne4 hne5 hne6 hne7 hne8 ih =>
    intro pre a' hl h
    rw [scanLoop.eq_def] at h
    dsimp only at h
    rw [if_neg (by simp), if_neg (by simp), if_neg (by simp), if_neg (by simp),
      if_neg (by simp), if_neg (by simp), if_neg (by simp), if_neg (by simp),
      if_pos (by trivial), if_pos (by trivial)] at h
    cases pre with
    | nil => simp at hl
    | cons p pre1 =>
      simp only [List.cons_append, List.cons.injEq] at hl
      obtain ⟨hp, hrest⟩ := hl
      cases pre1 with
      | nil => simp at hrest
      | cons w pre2 =>
        simp only [List.cons_append, List.cons.injEq] at hrest
        obtain ⟨hw, hrest2⟩ := hrest
        exact ih pre2 a' hrest2 h
  | case19 a v rest2 hnv hne1 hne2 hne3 hne4 hne5 hne6 hne7 hne8 =>
    intro pre a' hl h
    rw [scanLoop.eq_def] at h
    simp_all
  | case20 a hne1 hne2 hne3 hne4 hne5 hne6 hne7 hne8 =>
    intro pre a' hl h
    rw [scanLoop.eq_def] at h
    simp_all
  | case21 rest a hne1 hne2 hne3 hne4 hne5 hne6 hne7 hne8 hne9 ih =>
    intro pre a' hl h
    rw [scanLoop.eq_def] at h
    dsimp only at h
    rw [if_neg (by simp), if_neg (by simp), if_neg (by simp), if_neg (by simp),
      if_neg (by simp), if_neg (by simp), if_neg (by simp), if_neg (by simp),
      if_neg (by simp), if_pos (by trivial)] at h
    cases pre with
    | nil => simp at hl
    | cons p pre1 =>
      simp only [List.cons_append, List.cons.injEq] at hl
      obtain ⟨hp, hrest⟩ := hl
      exact ih pre1 a' hrest h
  | case22 a v rest2 a2 hc hne1 hne2 hne3 hne4 hne5 hne6 hne7 hne8 hne9 hne10 =>
    intro pre a' hl h
    rw [scanLoop.eq_def] at h
    simp_all
  | case23 a v rest2 a2 hnc hne1 hne2 hne3 hne4 hne5 hne6 hne7 hne8 hne9 hne10 ih =>
    intro pre a' hl h
    rw [scanLoop.eq_def] at h
    dsimp only at h
    rw [if_neg (by simp), if_neg (by simp), if_neg (by simp), if_neg (by simp),
      if_neg (by simp), if_neg (by simp), if_neg (by simp), if_neg (by simp),
      if_neg (by simp), if_neg (by simp), if_pos (by trivial), if_neg (by simp_all)] at h
    cases pre with
    | nil => simp at hl
    | cons p pre1 =>
      simp only [List.cons_append, List.cons.injEq] at hl
      obtain ⟨hp, hrest⟩ := hl
      cases pre1 with
      | nil =>
        simp only [List.nil_append, List.cons.injEq] at hrest
        obtain ⟨hv, ht⟩ := hrest
        subst hv
        subst ht
        rw [scanLoop_posTok env sL tl _ hpos] at h
        simp at h
      | cons w pre2 =>
        simp only [List.cons_append, List.cons.injEq] at hrest
        obtain ⟨hw, hrest2⟩ := hrest
        exact ih pre2 a' hrest2 h
  | case24 a hne1 hne2 hne3 hne4 hne5 hne6 hne7 hne8 hne9 hne10 =>
    intro pre a' hl h
    rw [scanLoop.eq_def] at h
    simp_all
  | case25 arg rest a hne1 hne2 hne3 hne4 hne5 hne6 hne7 hne8 hne9 hne10 hne11 =>
    intro pre a' hl h
    rw [scanLoop.eq_def] at h
    simp_all

lemma normalizeArgs_clArgs (a : Args) : (normalizeArgs a).1.clArgs = a.clArgs := by
  simp [normalizeArgs, fillSave_eq, fillCheck_eq, clampSave_eq, clampCheck_eq, truncSteps,
    forceTime_fst]

lemma normalizeArgs_uid (a : Args) : (normalizeArgs a).1.uid = a.uid := by
  simp [normalizeArgs, fillSave_eq, fillCheck_eq, clampSave_eq, clampCheck_eq, truncSteps,
    forceTime_fst]

lemma normalizeArgs_selfTest (a : Args) : (normalizeArgs a).1.selfTest = a.selfTest := by
  simp [normalizeArgs, fillSave_eq, fillCheck_eq, clampSave_eq, clampCheck_eq, truncSteps,
    forceTime_fst]

lemma normalizeArgs_useLegacy (a : Args) : (normalizeArgs a).1.useLegacy = a.useLegacy := by
  simp [normalizeArgs, fillSave_eq, fillCheck_eq, clampSave_eq, clampCheck_eq, truncSteps,
    forceTime_fst]

lemma normalizeArgs_safe (a : Args) : (normalizeArgs a).1.safe = a.safe := by
  simp [normalizeArgs, fillSave_eq, fillCheck_eq, clampSave_eq, clampCheck_eq, truncSteps,
    forceTime_fst]

lemma normalizeArgs_snd (a : Args) :
    (normalizeArgs a).2 =
      if a.timeKernels ∧ a.logStep = 1 then [LogMsg.ignoringTimeKernels] else [] := by
  simp [normalizeArgs, fillSave_eq, fillCheck_eq, clampSave_eq, clampCheck_eq, truncSteps,
    forceTime_snd]

lemma normalizeArgs_fixed_saveStep (a : Args) (hl : 0 < a.logStep)
    (hge : a.logStep ≤ a.saveStep) (hmod : a.saveStep % a.logStep = 0) :
    (normalizeArgs a).1.saveStep = a.saveStep := by
  rw [normalizeArgs_saveStep]
  rw [if_neg (show ¬a.saveStep = 0 by omega), if_neg (show ¬a.saveStep < a.logStep by omega)]
  rw [Int.tmod_eq_emod (by omega) (by omega), hmod]
  ring

lemma normalizeArgs_fixed_checkStep (a : Args) (hl : 0 < a.logStep)
    (hge : a.logStep ≤ a.checkStep) (hmod : a.checkStep % a.logStep = 0) :
    (normalizeArgs a).1.checkStep = a.checkStep := by
  rw [normalizeArgs_checkStep]
  rw [if_neg (show ¬a.checkStep = 0 by omega), if_neg (show ¬a.checkStep < a.logStep by omega)]
  rw [Int.tmod_eq_emod (by omega) (by omega), hmod]
  ring

/-- C4: for the argument vector containing only the program name, parse
returns true and the resulting configuration keeps `logStep = 20000` and gets
`saveStep = 10000000`, `checkStep = 200000`, `device = -1`, all four boolean
flags false. -/
theorem claim_C4_default_run (env : Env) :
    (runParse env ["gpuowl"]).1 = true ∧
    (runParse env ["gpuowl"]).2.1.logStep = 20000 ∧
    (runParse env ["gpuowl"]).2.1.saveStep = 10000000 ∧
    (runParse env ["gpuowl"]).2.1.checkStep = 200000 ∧
    (runParse env ["gpuowl"]).2.1.device = -1 ∧
    (runParse env ["gpuowl"]).2.1.timeKernels = false ∧
    (runParse env ["gpuowl"]).2.1.selfTest = false ∧
    (runParse env ["gpuowl"]).2.1.useLegacy = false ∧
    (runParse env ["gpuowl"]).2.1.safe = false := by
  refine ⟨rfl, ?_, ?_, ?_, ?_, rfl, rfl, rfl, rfl⟩ <;> rfl


lemma scanLoop_pair_time (env : Env) :
    ∀ (l : List String) (a : Args) (pre post : List String) (a' : Args),
      l = pre ++ "-time" :: "kernels" :: post →
      scanLoop env l a = .done a' → a'.timeKernels = true := by
  intro l a
  induction l, a using scanLoop.induct env with
  | case1 a =>
    intro pre post a' hl h
    simp at hl
  | case2 arg rest a hcond =>
    intro pre post a' hl h
    rw [scanLoop.eq_def] at h
    simp_all
  | case3 a v rest2 a2 hle hne1 =>
    intro pre post a' hl h
    rw [scanLoop.eq_def] at h
    simp_all
  | case4 a v rest2 a2 hnle hne1 ih =>
    intro pre post a' hl h
    rw [scanLoop.eq_def] at h
    dsimp only at h
    rw [if_neg (by simp), if_pos (by trivial), if_neg (by simp_all)] at h
    cases pre with
    | nil => simp at hl
    | cons p pre1 =>
      simp only [List.cons_append, List.cons.injEq] at hl
      obtain ⟨hp, hrest⟩ := hl
      cases pre1 with
      | nil =>
        simp only [List.nil_append, List.cons.injEq] at hrest
        obtain ⟨hv, -⟩ := hrest
        subst hv
        exact absurd (by decide : atoi "-time" ≤ 0) (by simp_all)
      | cons w pre2 =>
        simp only [List.cons_append, List.cons.injEq] at hrest
        obtain ⟨hw, hrest2⟩ := hrest
        exact ih pre2 post a' hrest2 h
  | case5 a hne1 =>
    intro pre post a' hl h
    rw [scanLoop.eq_def] at h
    simp_all
  | case6 a v rest2 a2 hle hne1 hne2 =>
    intro pre post a' hl h
    rw [scanLoop.eq_def] at h
    simp_all
  | case7 a v rest2 a2 hnle hne1 hne2 ih =>
    intro pre post a' hl h
    rw [scanLoop.eq_def] at h
    dsimp only at h
    rw [if_neg (by simp), if_neg (by simp), if_pos (by trivial), if_neg (by simp_all)] at h
    cases pre with
    | nil => simp at hl
    | cons p pre1 =>
      simp only [List.cons_append, List.cons.injEq] at hl
      obtain ⟨hp, hrest⟩ := hl
      cases pre1 with
      | nil =>
        simp only [List.nil_append, List.cons.injEq] at hrest
        obtain ⟨hv, -⟩ := hrest
        subst hv
        exact absurd (by decide : atoi "-time" ≤ 0) (by simp_all)
      | cons w pre2 =>
        simp only [List.cons_append, List.cons.injEq] at hrest
        obtain ⟨hw, hrest2⟩ := hrest
        exact ih pre2 post a' hrest2 h
  | case8 a hne1 hne2 =>
    intro pre post a' hl h
    rw [scanLoop.eq_def] at h
    simp_all
  | case9 a v rest2 a2 hle hne1 hne2 hne3 =>
    intro pre post a' hl h
    rw [scanLoop.eq_def] at h
    simp_all
  | case10 a v rest2 a2 hnle hne1 hne2 hne3 ih =>
    intro pre post a' hl h
    rw [scanLoop.eq_def] at h
    dsimp only at h
    rw [if_neg (by simp), if_neg (by simp), if_neg (by simp), if_pos (by trivial),
      if_neg (by simp_all)] at h
    cases pre with
    | nil => simp at hl
    | cons p pre1 =>
      simp only [List.cons_append, List.cons.injEq] at hl
      obtain ⟨hp, hrest⟩ := hl
      cases pre1 with
      | nil =>
        simp only [List.nil_append, List.cons.injEq] at hrest
        obtain ⟨hv, -⟩ := hrest
        subst hv
        exact absurd (by decide : atoi "-time" ≤ 0) (by simp_all)
      | cons w pre2 =>
        simp only [List.cons_append, List.cons.injEq] at hrest
        obtain ⟨hw, hrest2⟩ := hrest
        exact ih pre2 post a' hrest2 h
  | case11 a hne1 hne2 hne3 =>
    intro pre post a' hl h
    rw [scanLoop.eq_def] at h
    simp_all
  | case12 a v rest2 hne1 hne2 hne3 hne4 ih =>
    intro pre post a' hl h
    rw [scanLoop.eq_def] at h
    dsimp only at h
    rw [if_neg (by simp), if_neg (by simp), if_neg (by simp), if_neg (by simp),
      if_pos (by trivial)] at h
    cases pre with
    | nil => simp at hl
    | cons p pre1 =>
      simp only [List.cons_append, List.cons.injEq] at hl
      obtain ⟨hp, hrest⟩ := hl
      cases pre1 with
      | nil =>
        simp only [List.nil_append, List.cons.injEq] at hrest
        obtain ⟨hv, ht⟩ := hrest
        subst hv
        subst ht
        rw [scanLoop.eq_def] at h
        simp at h
      | cons w pre2 =>
        simp only [List.cons_append, List.cons.injEq] at hrest
        obtain ⟨hw, hrest2⟩ := hrest
        exact ih pre2 post a' hrest2 h
  | case13 a hne1 hne2 hne3 hne4 =>
    intro pre post a' hl h
    rw [scanLoop.eq_def] at h
    simp_all
  | case14 rest a hne1 hne2 hne3 hne4 hne5 ih =>
    intro pre post a' hl h
    rw [scanLoop.eq_def] at h
    dsimp only at h
    rw [if_neg (by simp), if_neg (by simp), if_neg (by simp), if_neg (by simp),
      if_neg (by simp), if_pos (by trivial)] at h
    cases pre with
    | nil => simp at hl
    | cons p pre1 =>
      simp only [List.cons_append, List.cons.injEq] at hl
      obtain ⟨hp, hrest⟩ := hl
      exact ih pre1 post a' hrest h
  | case15 a v rest2 hne1 hne2 hne3 hne4 hne5 hne6 ih =>
    intro pre post a' hl h
    rw [scanLoop.eq_def] at h
    dsimp only at h
    rw [if_neg (by simp), if_neg (by simp), if_neg (by simp), if_neg (by simp),
      if_neg (by simp), if_neg (by simp), if_pos (by trivial)] at h
    cases pre with
    | nil => simp at hl
    | cons p pre1 =>
      simp only [List.cons_append, List.cons.injEq] at hl
      obtain ⟨hp, hrest⟩ := hl
      cases pre1 with
      | nil =>
        simp only [List.nil_append, List.cons.injEq] at hrest
        obtain ⟨hv, ht⟩ := hrest
        subst hv
        subst ht
        rw [scanLoop.eq_def] at h
        simp at h
      | cons w pre2 =>
        simp only [List.cons_append, List.cons.injEq] at hrest
        obtain ⟨hw, hrest2⟩ := hrest
        exact ih pre2 post a' hrest2 h
  | case16 a hne1 hne2 hne3 hne4 hne5 hne6 =>
    intro pre post a' hl h
    rw [scanLoop.eq_def] at h
    simp_all
  | case17 rest a hne1 hne2 hne3 hne4 hne5 hne6 hne7 ih =>
    intro pre post a' hl h
    rw [scanLoop.eq_def] at h
    dsimp only at h
    rw [if_neg (by simp), if_neg (by simp), if_neg (by simp), if_neg (by simp),
      if_neg (by simp), if_neg (by simp), if_neg (by simp), if_pos (by trivial)] at h
    cases pre with
    | nil => simp at hl
    | cons p pre1 =>
      simp only [List.cons_append, List.cons.injEq] at hl
      obtain ⟨hp, hrest⟩ := hl
      exact ih pre1 post a' hrest h
  | case18 a rest2 hne1 hne2 hne3 hne4 hne5 hne6 hne7 hne8 ih =>
    intro pre post a' hl h
    rw [scanLoop.eq_def] at h
    dsimp only at h
    rw [if_neg (by simp), if_neg (by simp), if_neg (by simp), if_neg (by simp),
      if_neg (by simp), if_neg (by simp), if_neg (by simp), if_neg (by simp),
      if_pos (by trivial), if_pos (by trivial)] at h
    cases pre with
    | nil =>
      exact scanLoop_timeKernels_mono env rest2 _ a' h (by rfl)
    | cons p pre1 =>
      simp only [List.cons_append, List.cons.injEq] at hl
      obtain ⟨hp, hrest⟩ := hl
      cases pre1 with
      | nil => simp at hrest
      | cons w pre2 =>
        simp only [List.cons_append, List.cons.injEq] at hrest
        obtain ⟨hw, hrest2⟩ := hrest
        exact ih pre2 post a' hrest2 h
  | case19 a v rest2 hnv hne1 hne2 hne3 hne4 hne5 hne6 hne7 hne8 =>
    intro pre post a' hl h
    rw [scanLoop.eq_def] at h
    simp_all
  | case20 a hne1 hne2 hne3 hne4 hne5 hne6 hne7 hne8 =>
    intro pre post a' hl h
    rw [scanLoop.eq_def] at h
    simp_all
  | case21 rest a hne1 hne2 hne3 hne4 hne5 hne6 hne7 hne8 hne9 ih =>
    intro pre post a' hl h
    rw [scanLoop.eq_def] at h
    dsimp only at h
    rw [if_neg (by simp), if_neg (by simp), if_neg (by simp), if_neg (by simp),
      if_neg (by simp), if_neg (by simp), if_neg (by simp), if_neg (by simp),
      if_neg (by simp), if_pos (by trivial)] at h
    cases pre with
    | nil => simp at hl
    | cons p pre1 =>
      simp only [List.cons_append, List.cons.injEq] at hl
      obtain ⟨hp, hrest⟩ := hl
      exact ih pre1 post a' hrest h
  | case22 a v rest2 a2 hc hne1 hne2 hne3 hne4 hne5 hne6 hne7 hne8 hne9 hne10 =>
    intro pre post a' hl h
    rw [scanLoop.eq_def] at h
    simp_all
  | case23 a v rest2 a2 hnc hne1 hne2 hne3 hne4 hne5 hne6 hne7 hne8 hne9 hne10 ih =>
    intro pre post a' hl h
    rw [scanLoop.eq_def] at h
    dsimp only at h
    rw [if_neg (by simp), if_neg (by simp), if_neg (by simp), if_neg (by simp),
      if_neg (by simp), if_neg (by simp), if_neg (by simp), if_neg (by simp),
      if_neg (by simp), if_neg (by simp), if_pos (by trivial), if_neg (by simp_all)] at h
    cases pre with
    | nil => simp at hl
    | cons p pre1 =>
      simp only [List.cons_append, List.cons.injEq] at hl
      obtain ⟨hp, hrest⟩ := hl
      cases pre1 with
      | nil =>
        simp only [List.nil_append, List.cons.injEq] at hrest
        obtain ⟨hv, ht⟩ := hrest
        subst hv
        subst ht
        rw [scanLoop.eq_def] at h
        simp at h
      | cons w pre2 =>
        simp only [List.cons_append, List.cons.injEq] at hrest
        obtain ⟨hw, hrest2⟩ := hrest
        exact ih pre2 post a' hrest2 h
  | case24 a hne1 hne2 hne3 hne4 hne5 hne6 hne7 hne8 hne9 hne10 =>
    intro pre post a' hl h
    rw [scanLoop.eq_def] at h
    simp_all
  | case25 arg rest a hne1 hne2 hne3 hne4 hne5 hne6 hne7 hne8 hne9 hne10 hne11 =>
    intro pre post a' hl h
    rw [scanLoop.eq_def] at h
    simp_all

/-- C1: for every argument vector for which parse returns true, the resulting
configuration satisfies all success invariants: `logStep > 0`;
`saveStep >= logStep` with `saveStep mod logStep == 0`; `checkStep >= logStep`
with `checkStep mod logStep == 0`; `timeKernels` implies `logStep > 1`; and
`device` is `-1` or a valid index below the number of available devices. -/
theorem claim_C1_success_invariants (env : Env) (argv : List String)
    (h : (runParse env argv).1 = true) :
    0 < (runParse env argv).2.1.logStep ∧
    (runParse env argv).2.1.logStep ≤ (runParse env argv).2.1.saveStep ∧
    (runParse env argv).2.1.saveStep % (runParse env argv).2.1.logStep = 0 ∧
    (runParse env argv).2.1.logStep ≤ (runParse env argv).2.1.checkStep ∧
    (runParse env argv).2.1.checkStep % (runParse env argv).2.1.logStep = 0 ∧
    ((runParse env argv).2.1.timeKernels = true → 1 < (runParse env argv).2.1.logStep) ∧
    ((runParse env argv).2.1.device = -1 ∨
      (0 ≤ (runParse env argv).2.1.device ∧
        (runParse env argv).2.1.device < (env.numDevices : Int))) := by
  cases heq : scanLoop env argv.tail Args.init with
  | failed a msgs => simp [runParse, parse, heq] at h
  | done a =>
    have hl : 0 < a.logStep :=
      scanLoop_logStep_pos env argv.tail Args.init a heq (by norm_num [Args.init])
    have hdev := scanLoop_device_ok env argv.tail Args.init a heq (Or.inl rfl)
    have hcore := normalizeArgs_core a hl
    simp only [runParse, parse, List.drop_one, heq]
    rw [hcore.1, hcore.2.2.2.2.2.2]
    exact ⟨hl, hcore.2.1, hcore.2.2.1, hcore.2.2.2.1, hcore.2.2.2.2.1,
      hcore.2.2.2.2.2.1, hdev⟩

/-- Witness for C1 at the default run in a two-device environment. -/
theorem claim_C1_witness :
    (runParse envTest ["gpuowl"]).1 = true ∧
    0 < (runParse envTest ["gpuowl"]).2.1.logStep ∧
    (runParse envTest ["gpuowl"]).2.1.logStep ≤ (runParse envTest ["gpuowl"]).2.1.saveStep :=
  ⟨rfl, (claim_C1_success_invariants envTest ["gpuowl"] rfl).1,
    (claim_C1_success_invariants envTest ["gpuowl"] rfl).2.1⟩

/-- C2: for every explicit logStep value `L > 0` given via `-logstep` (as the
last `-logstep` occurrence), when no `-savestep` and no `-checkstep` token is
present and parse returns true, the resulting `saveStep` equals `500*L` and
the resulting `checkStep` equals `10*L`. -/
theorem claim_C2_derived_defaults (env : Env) (prog sL : String) (pre tl : List String)
    (L : Int) (hL : 0 < L) (hatoi : atoi sL = L) (hlast : "-logstep" ∉ tl)
    (hnosave : "-savestep" ∉ pre ++ "-logstep" :: sL :: tl)
    (hnocheck : "-checkstep" ∉ pre ++ "-logstep" :: sL :: tl)
    (hok : (runParse env (prog :: pre ++ "-logstep" :: sL :: tl)).1 = true) :
    (runParse env (prog :: pre ++ "-logstep" :: sL :: tl)).2.1.saveStep = 500 * L ∧
    (runParse env (prog :: pre ++ "-logstep" :: sL :: tl)).2.1.checkStep = 10 * L := by
  cases heq : scanLoop env (pre ++ "-logstep" :: sL :: tl) Args.init with
  | failed a msgs => simp [runParse, parse, heq] at hok
  | done a =>
    have hlog : a.logStep = L := by
      rw [scanLoop_last_logstep env sL tl hlast (by omega) _ Args.init pre a rfl heq, hatoi]
    have hsave : a.saveStep = 0 :=
      scanLoop_saveStep_const env _ Args.init a heq hnosave
    have hcheck : a.checkStep = 0 :=
      scanLoop_checkStep_const env _ Args.init a heq hnocheck
    have hred : (runParse env (prog :: pre ++ "-logstep" :: sL :: tl)).2.1 = (normalizeArgs a).1 := by
      simp [runParse, parse, heq]
    rw [hred]
    constructor
    · rw [normalizeArgs_saveStep, hsave, hlog]
      rw [show (if (0 : Int) = 0 then L * 500 else 0) = L * 500 from if_pos rfl]
      rw [if_neg (by omega)]
      rw [Int.tmod_eq_emod (by omega) (by omega)]
      rw [Int.mul_emod_right]
      ring
    · rw [normalizeArgs_checkStep, hcheck, hlog]
      rw [show (if (0 : Int) = 0 then L * 10 else 0) = L * 10 from if_pos rfl]
      rw [if_neg (by omega)]
      rw [Int.tmod_eq_emod (by omega) (by omega)]
      rw [Int.mul_emod_right]
      ring

/-- Witness for C2: `-logstep 7` alone yields `saveStep = 3500`,
`checkStep = 70`. -/
theorem claim_C2_witness :
    (runParse envTest ["gpuowl", "-logstep", "7"]).1 = true ∧
    (runParse envTest ["gpuowl", "-logstep", "7"]).2.1.saveStep = 500 * 7 ∧
    (runParse envTest ["gpuowl", "-logstep", "7"]).2.1.checkStep = 10 * 7 :=
  ⟨by decide,
   (claim_C2_derived_defaults envTest "gpuowl" "7" [] [] 7 (by decide) (by decide)
      (by decide) (by decide) (by decide) (by decide)).1,
   (claim_C2_derived_defaults envTest "gpuowl" "7" [] [] 7 (by decide) (by decide)
      (by decide) (by decide) (by decide) (by decide)).2⟩

/-- C3: for every explicit `-savestep` value `S` (the post-scan `saveStep`,
positive since the flag validates it) and effective logStep `L`, on successful
parse: if `0 < S < L` the resulting `saveStep` equals `L`, and if `S >= L` the
resulting `saveStep` equals `S - (S mod L)` and is at most `S`. -/
theorem claim_C3_savestep_normalization (env : Env) (prog : String) (argvTail : List String)
    (S L : Int) (a : Args)
    (hscan : scanLoop env argvTail Args.init = .done a)
    (hS : a.saveStep = S) (hL : a.logStep = L) (hSpos : 0 < S) :
    (S < L → (runParse env (prog :: argvTail)).2.1.saveStep = L) ∧
    (L ≤ S → (runParse env (prog :: argvTail)).2.1.saveStep = S - S % L ∧
      (runParse env (prog :: argvTail)).2.1.saveStep ≤ S) := by
  have hLpos : 0 < L := by
    have := scanLoop_logStep_pos env argvTail Args.init a hscan (by norm_num [Args.init])
    omega
  have hred : (runParse env (prog :: argvTail)).2.1 = (normalizeArgs a).1 := by
    simp [runParse, parse, hscan]
  rw [hred, normalizeArgs_saveStep, hS, hL]
  rw [show (if S = 0 then L * 500 else S) = S from if_neg (by omega)]
  constructor
  · intro hlt
    rw [if_pos hlt]
    rw [Int.tmod_eq_emod (by omega) (by omega), Int.emod_self]
    ring
  · intro hge
    rw [if_neg (by omega)]
    rw [Int.tmod_eq_emod (by omega) (by omega)]
    have hnn : 0 ≤ S % L := Int.emod_nonneg S (by omega)
    exact ⟨rfl, by omega⟩

/-- Witness for C3 in both regimes: `-savestep 25` with logStep 10 gives 20,
and `-savestep 3` with logStep 10 clamps up to 10. -/
theorem claim_C3_witness :
    (runParse envTest ["gpuowl", "-logstep", "10", "-savestep", "25"]).2.1.saveStep =
      25 - 25 % 10 ∧
    (runParse envTest ["gpuowl", "-logstep", "10", "-savestep", "25"]).2.1.saveStep ≤ 25 ∧
    (runParse envTest ["gpuowl", "-logstep", "10", "-savestep", "3"]).2.1.saveStep = 10 :=
  ⟨((claim_C3_savestep_normalization envTest "gpuowl" ["-logstep", "10", "-savestep", "25"]
      25 10 { Args.init with logStep := 10, saveStep := 25 }
      (by decide) (by decide) (by decide) (by decide)).2 (by decide)).1,
   ((claim_C3_savestep_normalization envTest "gpuowl" ["-logstep", "10", "-savestep", "25"]
      25 10 { Args.init with logStep := 10, saveStep := 25 }
      (by decide) (by decide) (by decide) (by decide)).2 (by decide)).2,
   (claim_C3_savestep_normalization envTest "gpuowl" ["-logstep", "10", "-savestep", "3"]
      3 10 { Args.init with logStep := 10, saveStep := 3 }
      (by decide) (by decide) (by decide) (by decide)).1 (by decide)⟩

/-- C5: numeric value flags use a best-effort integer conversion that yields
0 for non-numeric input: `-logstep abc` becomes 0 and parse fails via the
positivity check (emitting that diagnostic), while `-device abc` (with at
least one device available) becomes 0, passes the range check, and parse
succeeds with device index 0. -/
theorem claim_C5_lax_numeric_parse (env : Env) (hdev : 1 ≤ env.numDevices) :
    atoi "abc" = 0 ∧
    (runParse env ["gpuowl", "-logstep", "abc"]).1 = false ∧
    (runParse env ["gpuowl", "-logstep", "abc"]).2.2 = [LogMsg.invalidLogstep "abc"] ∧
    (runParse env ["gpuowl", "-device", "abc"]).1 = true ∧
    (runParse env ["gpuowl", "-device", "abc"]).2.1.device = 0 := by
  have h0 : atoi "abc" = 0 := by decide
  have hscan : scanLoop env ["-device", "abc"] Args.init = .done { Args.init with device := 0 } := by
    simp [scanLoop, h0]
    omega
  refine ⟨h0, by rfl, by rfl, ?_, ?_⟩
  · simp [runParse, parse, hscan]
  · simp [runParse, parse, hscan, normalizeArgs_device]

/-- Witness for C5 in the two-device test environment. -/
theorem claim_C5_witness :
    1 ≤ envTest.numDevices ∧
    (atoi "abc" = 0 ∧
     (runParse envTest ["gpuowl", "-logstep", "abc"]).1 = false ∧
     (runParse envTest ["gpuowl", "-logstep", "abc"]).2.2 = [LogMsg.invalidLogstep "abc"] ∧
     (runParse envTest ["gpuowl", "-device", "abc"]).1 = true ∧
     (runParse envTest ["gpuowl", "-device", "abc"]).2.1.device = 0) :=
  ⟨by decide, claim_C5_lax_numeric_parse envTest (by decide)⟩

/-- C6: for every argument vector containing the pair `-time kernels` whose
scan completes without error: if the effective logStep is 1, parse returns
true with `timeKernels = false` and exactly one warning logged; if the
effective logStep exceeds 1, parse returns true with `timeKernels = true`. -/
theorem claim_C6_time_kernels_forcing (env : Env) (prog : String) (pre post : List String)
    (a : Args)
    (hscan : scanLoop env (pre ++ "-time" :: "kernels" :: post) Args.init = .done a) :
    (a.logStep = 1 →
      (runParse env (prog :: pre ++ "-time" :: "kernels" :: post)).1 = true ∧
      (runParse env (prog :: pre ++ "-time" :: "kernels" :: post)).2.1.timeKernels = false ∧
      ((runParse env (prog :: pre ++ "-time" :: "kernels" :: post)).2.2.countP
        LogMsg.isTimeWarning) = 1) ∧
    (1 < a.logStep →
      (runParse env (prog :: pre ++ "-time" :: "kernels" :: post)).1 = true ∧
      (runParse env (prog :: pre ++ "-time" :: "kernels" :: post)).2.1.timeKernels = true) := by
  have htk : a.timeKernels = true :=
    scanLoop_pair_time env (pre ++ "-time" :: "kernels" :: post) Args.init pre post a rfl hscan
  have hb : (runParse env (prog :: pre ++ "-time" :: "kernels" :: post)).1 = true := by
    simp [runParse, parse, hscan]
  have hargs : (runParse env (prog :: pre ++ "-time" :: "kernels" :: post)).2.1 =
      (normalizeArgs a).1 := by
    simp [runParse, parse, hscan]
  have hmsgs : (runParse env (prog :: pre ++ "-time" :: "kernels" :: post)).2.2 =
      (normalizeArgs a).2 ++ [LogMsg.config (normalizeArgs a).1] := by
    simp [runParse, parse, hscan]
  constructor
  · intro h1
    refine ⟨hb, ?_, ?_⟩
    · rw [hargs, normalizeArgs_timeKernels, if_pos ⟨htk, h1⟩]
    · rw [hmsgs, normalizeArgs_snd, if_pos ⟨htk, h1⟩]
      simp [List.countP_cons, LogMsg.isTimeWarning]
  · intro h2
    refine ⟨hb, ?_⟩
    rw [hargs, normalizeArgs_timeKernels, if_neg (by omega)]
    exact htk

/-- Witness for C6: `-logstep 1 -time kernels` succeeds with the warning. -/
theorem claim_C6_witness :
    scanLoop envTest (["-logstep", "1"] ++ "-time" :: "kernels" :: []) Args.init =
      .done { Args.init with logStep := 1, timeKernels := true } ∧
    (runParse envTest ["gpuowl", "-logstep", "1", "-time", "kernels"]).1 = true ∧
    (runParse envTest ["gpuowl", "-logstep", "1", "-time", "kernels"]).2.1.timeKernels = false ∧
    ((runParse envTest ["gpuowl", "-logstep", "1", "-time", "kernels"]).2.2.countP
      LogMsg.isTimeWarning) = 1 := by
  refine ⟨by decide, ?_⟩
  have h := (claim_C6_time_kernels_forcing envTest "gpuowl" ["-logstep", "1"] []
    { Args.init with logStep := 1, timeKernels := true } (by decide)).1 (by decide)
  exact h
/-- C7: the normalization pass is idempotent: applied to an already-normalized
configuration (the output of a first application, with its `logStep` kept,
positive as the scan guarantees), it changes no field and emits no warning. -/
theorem claim_C7_normalization_idempotent (a : Args) (hl : 0 < a.logStep) :
    (normalizeArgs (normalizeArgs a).1).1 = (normalizeArgs a).1 ∧
    (normalizeArgs (normalizeArgs a).1).2 = [] := by
  have hcore := normalizeArgs_core a hl
  have hl₂ : 0 < (normalizeArgs a).1.logStep := by rw [hcore.1]; exact hl
  constructor
  · ext
    · rw [normalizeArgs_clArgs]
    · rw [normalizeArgs_uid]
    · rw [normalizeArgs_logStep]
    · exact normalizeArgs_fixed_saveStep _ hl₂ (by rw [hcore.1]; exact hcore.2.1)
        (by rw [hcore.1]; exact hcore.2.2.1)
    · exact normalizeArgs_fixed_checkStep _ hl₂ (by rw [hcore.1]; exact hcore.2.2.2.1)
        (by rw [hcore.1]; exact hcore.2.2.2.2.1)
    · rw [normalizeArgs_device]
    · rw [normalizeArgs_timeKernels]
      split
      · rename_i hcond
        have := hcore.2.2.2.2.2.1 hcond.1
        rw [hcore.1] at hcond
        omega
      · rfl
    · rw [normalizeArgs_selfTest]
    · rw [normalizeArgs_useLegacy]
    · rw [normalizeArgs_safe]
  · rw [normalizeArgs_snd]
    split
    · rename_i hcond
      have := hcore.2.2.2.2.2.1 hcond.1
      rw [hcore.1] at hcond
      omega
    · rfl

/-- Witness for C7 at the default configuration. -/
theorem claim_C7_witness :
    0 < Args.init.logStep ∧
    (normalizeArgs (normalizeArgs Args.init).1).1 = (normalizeArgs Args.init).1 :=
  ⟨by norm_num [Args.init], (claim_C7_normalization_idempotent Args.init (by norm_num [Args.init])).1⟩

/-- C8 (amended): for every argument vector in which a value flag is the last
token and the scan actually reaches that token as a flag (the preceding tokens
scan cleanly), parse aborts, returns false, emits exactly the one diagnostic
naming the flag and its expected argument, and processes no further tokens. -/
theorem claim_C8_missing_value_aborts (env : Env) (prog flag : String) (pre : List String)
    (a : Args)
    (hflag : flag ∈ ["-logstep", "-savestep", "-checkstep", "-uid", "-cl", "-device"])
    (hpre : scanLoop env pre Args.init = .done a) :
    runParse env (prog :: pre ++ [flag]) = (false, a, [expectsMsg flag]) := by
  have happ := scanLoop_append env [flag] pre Args.init a hpre
  fin_cases hflag <;>
    simp_all [runParse, parse, scanLoop, expectsMsg]

/-- Counterexample to C8 as stated: in `gpuowl -uid -logstep` the value flag
`-logstep` is the last token, yet parse returns true because `-uid` consumed
it as a value. -/
theorem claim_C8_counterexample :
    "-logstep" ∈ ["-logstep", "-savestep", "-checkstep", "-uid", "-cl", "-device"] ∧
    (runParse envTest ["gpuowl", "-uid", "-logstep"]).1 = true ∧
    (runParse envTest ["gpuowl", "-uid", "-logstep"]).2.1.uid = "-logstep" := by
  refine ⟨by decide, by decide, by decide⟩

/-- Witness for the amended C8: `-legacy -cl` aborts with the `-cl`
diagnostic. -/
theorem claim_C8_witness :
    runParse envTest ["gpuowl", "-legacy", "-cl"] =
      (false, { Args.init with useLegacy := true }, [expectsMsg "-cl"]) :=
  claim_C8_missing_value_aborts envTest "gpuowl" "-cl" ["-legacy"]
    { Args.init with useLegacy := true } (by decide) (by decide)

/-- C10: the usage output of `-h`/`--help` enumerates `min numDevices 16`
devices, hence at most 16 even when the enumerator reports more, and parse
returns false with the configuration untouched, processing no further
tokens. -/
theorem claim_C10_help_device_cap (env : Env) (prog : String) (post : List String) :
    parse env Args.init (prog :: "-h" :: post) =
      (false, Args.init, helpMsgs env Args.init.logStep) ∧
    parse env Args.init (prog :: "--help" :: post) =
      (false, Args.init, helpMsgs env Args.init.logStep) ∧
    ((helpMsgs env Args.init.logStep).countP LogMsg.isDeviceLine) = min env.numDevices 16 ∧
    min env.numDevices 16 ≤ 16 := by
  have hh : scanLoop env ("-h" :: post) Args.init =
      .failed Args.init (helpMsgs env Args.init.logStep) := by
    rw [scanLoop.eq_def]
    dsimp only
    rw [if_pos (by simp)]
  have hh2 : scanLoop env ("--help" :: post) Args.init =
      .failed Args.init (helpMsgs env Args.init.logStep) := by
    rw [scanLoop.eq_def]
    dsimp only
    rw [if_pos (by simp)]
  refine ⟨?_, ?_, ?_, by omega⟩
  · simp [parse, hh]
  · simp [parse, hh2]
  · simp only [helpMsgs, List.countP_cons, List.countP_append, List.countP_map,
      LogMsg.isDeviceLine]
    have hcomp : (LogMsg.isDeviceLine ∘ fun i => LogMsg.deviceLine i (env.deviceInfo i)) =
        fun _ => true := funext fun i => rfl
    rw [hcomp, List.countP_true, List.length_range]
    simp [LogMsg.isDeviceLine]


/-- C9 (amended): when a value flag appears more than once in the argument
vector, and the scan reaches the last occurrence as a flag (the tokens before
it scan cleanly), the field written by the scan holds the value of that last
occurrence: for `-logstep`, `-uid`, `-cl`, `-device` the normalization pass
leaves the field unchanged, so on a successful parse the final configuration
field equals that value; for `-savestep`/`-checkstep` it is the post-scan
field that holds it (normalization then reshapes it).  Each earlier occurrence
reached as a flag is still individually validated: a non-positive `-logstep` /
`-savestep` / `-checkstep` value, or an out-of-range `-device` value, aborts
the parse no matter what tokens (including a later valid occurrence)
follow. -/
theorem claim_C9_repeated_value_flags (env : Env) (prog s : String) (pre tl : List String)
    (b : Args) (hpre : scanLoop env pre Args.init = .done b) :
    ("-logstep" ∉ tl →
      (runParse env (prog :: pre ++ "-logstep" :: s :: tl)).1 = true →
      (runParse env (prog :: pre ++ "-logstep" :: s :: tl)).2.1.logStep = atoi s) ∧
    ("-uid" ∉ tl →
      (runParse env (prog :: pre ++ "-uid" :: s :: tl)).1 = true →
      (runParse env (prog :: pre ++ "-uid" :: s :: tl)).2.1.uid = s) ∧
    ("-cl" ∉ tl →
      (runParse env (prog :: pre ++ "-cl" :: s :: tl)).1 = true →
      (runParse env (prog :: pre ++ "-cl" :: s :: tl)).2.1.clArgs = s) ∧
    ("-device" ∉ tl →
      (runParse env (prog :: pre ++ "-device" :: s :: tl)).1 = true →
      (runParse env (prog :: pre ++ "-device" :: s :: tl)).2.1.device = atoi s) ∧
    ("-savestep" ∉ tl →
      ∀ a', scanLoop env (pre ++ "-savestep" :: s :: tl) Args.init = .done a' →
        a'.saveStep = atoi s) ∧
    ("-checkstep" ∉ tl →
      ∀ a', scanLoop env (pre ++ "-checkstep" :: s :: tl) Args.init = .done a' →
        a'.checkStep = atoi s) ∧
    (atoi s ≤ 0 →
      ∀ rest, (runParse env (prog :: pre ++ "-logstep" :: s :: rest)).1 = false) ∧
    (atoi s ≤ 0 →
      ∀ rest, (runParse env (prog :: pre ++ "-savestep" :: s :: rest)).1 = false) ∧
    (atoi s ≤ 0 →
      ∀ rest, (runParse env (prog :: pre ++ "-checkstep" :: s :: rest)).1 = false) ∧
    ((atoi s < 0 ∨ (env.numDevices : Int) ≤ atoi s) →
      ∀ rest, (runParse env (prog :: pre ++ "-device" :: s :: rest)).1 = false) := by
  refine ⟨?_, ?_, ?_, ?_, ?_, ?_, ?_, ?_, ?_, ?_⟩
  · intro hnot hok
    cases heq : scanLoop env (pre ++ "-logstep" :: s :: tl) Args.init with
    | failed a2 msgs => simp [runParse, parse, heq] at hok
    | done a2 =>
      rw [scanLoop_append env ("-logstep" :: s :: tl) pre Args.init b hpre] at heq
      rw [scanLoop.eq_def] at heq
      dsimp only at heq
      rw [if_neg (by simp), if_pos (by trivial)] at heq
      by_cases hv : atoi s ≤ 0
      · rw [if_pos hv] at heq
        exact absurd heq (by simp)
      · rw [if_neg hv] at heq
        have hconst := scanLoop_logStep_const env tl _ a2 heq hnot
        have heq2 : scanLoop env (pre ++ "-logstep" :: s :: tl) Args.init = .done a2 := by
          rw [scanLoop_append env ("-logstep" :: s :: tl) pre Args.init b hpre]
          rw [scanLoop.eq_def]
          dsimp only
          rw [if_neg (by simp), if_pos (by trivial), if_neg hv]
          exact heq
        simp [runParse, parse, heq2, normalizeArgs_logStep, hconst]
  · intro hnot hok
    cases heq : scanLoop env (pre ++ "-uid" :: s :: tl) Args.init with
    | failed a2 msgs => simp [runParse, parse, heq] at hok
    | done a2 =>
      have heq' := heq
      rw [scanLoop_append env ("-uid" :: s :: tl) pre Args.init b hpre] at heq'
      rw [scanLoop.eq_def] at heq'
      dsimp only at heq'
      rw [if_neg (by simp), if_neg (by simp), if_neg (by simp), if_neg (by simp),
        if_pos (by trivial)] at heq'
      have hconst := scanLoop_uid_const env tl _ a2 heq' hnot
      simp [runParse, parse, heq, normalizeArgs_uid, hconst]
  · intro hnot hok
    cases heq : scanLoop env (pre ++ "-cl" :: s :: tl) Args.init with
    | failed a2 msgs => simp [runParse, parse, heq] at hok
    | done a2 =>
      have heq' := heq
      rw [scanLoop_append env ("-cl" :: s :: tl) pre Args.init b hpre] at heq'
      rw [scanLoop.eq_def] at heq'
      dsimp only at heq'
      rw [if_neg (by simp), if_neg (by simp), if_neg (by simp), if_neg (by simp),
        if_neg (by simp), if_neg (by simp), if_pos (by trivial)] at heq'
      have hconst := scanLoop_clArgs_const env tl _ a2 heq' hnot
      simp [runParse, parse, heq, normalizeArgs_clArgs, hconst]
  · intro hnot hok
    cases heq : scanLoop env (pre ++ "-device" :: s :: tl) Args.init with
    | failed a2 msgs => simp [runParse, parse, heq] at hok
    | done a2 =>
      have heq' := heq
      rw [scanLoop_append env ("-device" :: s :: tl) pre Args.init b hpre] at heq'
      rw [scanLoop.eq_def] at heq'
      dsimp only at heq'
      rw [if_neg (by simp), if_neg (by simp), if_neg (by simp), if_neg (by simp),
        if_neg (by simp), if_neg (by simp), if_neg (by simp), if_neg (by simp),
        if_neg (by simp), if_neg (by simp), if_pos (by trivial)] at heq'
      by_cases hc : (decide (atoi s < 0) || decide ((env.numDevices : Int) ≤ atoi s)) = true
      · rw [if_pos hc] at heq'
        exact absurd heq' (by simp)
      · rw [if_neg hc] at heq'
        have hconst := scanLoop_device_const env tl _ a2 heq' hnot
        simp [runParse, parse, heq, normalizeArgs_device, hconst]
  · intro hnot a' hdone
    rw [scanLoop_append env ("-savestep" :: s :: tl) pre Args.init b hpre] at hdone
    rw [scanLoop.eq_def] at hdone
    dsimp only at hdone
    rw [if_neg (by simp), if_neg (by simp), if_pos (by trivial)] at hdone
    by_cases hv : atoi s ≤ 0
    · rw [if_pos hv] at hdone
      exact absurd hdone (by simp)
    · rw [if_neg hv] at hdone
      have hconst := scanLoop_saveStep_const env tl _ a' hdone hnot
      simpa using hconst
  · intro hnot a' hdone
    rw [scanLoop_append env ("-checkstep" :: s :: tl) pre Args.init b hpre] at hdone
    rw [scanLoop.eq_def] at hdone
    dsimp only at hdone
    rw [if_neg (by simp), if_neg (by simp), if_neg (by simp), if_pos (by trivial)] at hdone
    by_cases hv : atoi s ≤ 0
    · rw [if_pos hv] at hdone
      exact absurd hdone (by simp)
    · rw [if_neg hv] at hdone
      have hconst := scanLoop_checkStep_const env tl _ a' hdone hnot
      simpa using hconst
  · intro hv rest
    have hfail : scanLoop env (pre ++ "-logstep" :: s :: rest) Args.init =
        .failed { b with logStep := atoi s } [.invalidLogstep s] := by
      rw [scanLoop_append env ("-logstep" :: s :: rest) pre Args.init b hpre]
      rw [scanLoop.eq_def]
      dsimp only
      rw [if_neg (by simp), if_pos (by trivial), if_pos hv]
    simp [runParse, parse, hfail]
  · intro hv rest
    have hfail : scanLoop env (pre ++ "-savestep" :: s :: rest) Args.init =
        .failed { b with saveStep := atoi s } [.invalidSavestep s] := by
      rw [scanLoop_append env ("-savestep" :: s :: rest) pre Args.init b hpre]
      rw [scanLoop.eq_def]
      dsimp only
      rw [if_neg (by simp), if_neg (by simp), if_pos (by trivial), if_pos hv]
    simp [runParse, parse, hfail]
  · intro hv rest
    have hfail : scanLoop env (pre ++ "-checkstep" :: s :: rest) Args.init =
        .failed { b with checkStep := atoi s } [.invalidCheckstep s] := by
      rw [scanLoop_append env ("-checkstep" :: s :: rest) pre Args.init b hpre]
      rw [scanLoop.eq_def]
      dsimp only
      rw [if_neg (by simp), if_neg (by simp), if_neg (by simp), if_pos (by trivial),
        if_pos hv]
    simp [runParse, parse, hfail]
  · intro hv rest
    have hfail : scanLoop env (pre ++ "-device" :: s :: rest) Args.init =
        .failed { b with device := atoi s }
          [.invalidDevice (atoi s) ((env.numDevices : Int) - 1)] := by
      rw [scanLoop_append env ("-device" :: s :: rest) pre Args.init b hpre]
      rw [scanLoop.eq_def]
      dsimp only
      rw [if_neg (by simp), if_neg (by simp), if_neg (by simp), if_neg (by simp),
        if_neg (by simp), if_neg (by simp), if_neg (by simp), if_neg (by simp),
        if_neg (by simp), if_neg (by simp), if_pos (by trivial),
        if_pos (by simpa using hv)]
    simp [runParse, parse, hfail]

/-- Counterexample to C9 as stated: `gpuowl -savestep 100 -savestep 300`
parses successfully, but the final `saveStep` is 20000 (the last value 300 is
clamped up to the default `logStep` by the normalization pass), so the
resulting field does not hold the value of the last `-savestep` occurrence. -/
theorem claim_C9_counterexample :
    (runParse envTest ["gpuowl", "-savestep", "100", "-savestep", "300"]).1 = true ∧
    atoi "300" = 300 ∧
    (runParse envTest ["gpuowl", "-savestep", "100", "-savestep", "300"]).2.1.saveStep = 20000 ∧
    (runParse envTest ["gpuowl", "-savestep", "100", "-savestep", "300"]).2.1.saveStep ≠
      atoi "300" := by
  refine ⟨by decide, by decide, by decide, by decide⟩

/-- Witness for the amended C9: an earlier `-logstep 3` is overridden by
`-logstep 7`; the post-scan `saveStep` after `-savestep 100 -savestep 300`
is 300; and an invalid first `-logstep` value aborts despite a valid later
one. -/
theorem claim_C9_witness :
    (runParse envTest ["gpuowl", "-logstep", "3", "-logstep", "7"]).1 = true ∧
    (runParse envTest ["gpuowl", "-logstep", "3", "-logstep", "7"]).2.1.logStep = atoi "7" ∧
    (scanLoop envTest (["-savestep", "100"] ++ "-savestep" :: "300" :: []) Args.init =
      .done { Args.init with saveStep := 300 }) ∧
    ({ Args.init with saveStep := 300 } : Args).saveStep = atoi "300" ∧
    atoi "bad" ≤ 0 ∧
    (runParse envTest ["gpuowl", "-logstep", "bad", "-logstep", "7"]).1 = false :=
  ⟨by decide,
   (claim_C9_repeated_value_flags envTest "gpuowl" "7" ["-logstep", "3"] []
      { Args.init with logStep := 3 } (by decide)).1 (by decide) (by decide),
   by decide,
   (claim_C9_repeated_value_flags envTest "gpuowl" "300" ["-savestep", "100"] []
      { Args.init with saveStep := 100 } (by decide)).2.2.2.2.1 (by decide)
      { Args.init with saveStep := 300 } (by decide),
   by decide,
   (claim_C9_repeated_value_flags envTest "gpuowl" "bad" [] [] Args.init
      (by decide)).2.2.2.2.2.2.1 (by decide) ["-logstep", "7"]⟩
